import Mathlib

/-!
# Watcher-group registry of the gRPC proxy (`proxy/grpcproxy/watcher_groups.go`)

A shallow embedding of the `watchergroups` registry.  Go pointers to
`watcherGroup` objects are addresses into an explicit heap, the two Go maps are
association lists, and every externally visible action of a registry call
(deriving a context, opening an upstream watch, starting a fan-out goroutine,
attempting a delivery, invoking a cancel function) is appended to a log.
Each registry method runs entirely under `wgs.mu`, so it is one atomic
transition of the state.
-/

namespace GrpcProxy

/-! ## Go maps -/

/-- Reading `m[k]` with the comma-ok form: the value of the first entry for `k`. -/
def mapLookup {κ ν : Type} [DecidableEq κ] : List (κ × ν) → κ → Option ν
  | [], _ => none
  | (k1, v) :: rest, k => if k1 = k then some v else mapLookup rest k

/-- The builtin `delete(m, k)`: drops every entry for `k`, a no-op when absent. -/
def mapDelete {κ ν : Type} [DecidableEq κ] (m : List (κ × ν)) (k : κ) : List (κ × ν) :=
  m.filter (fun e => decide (e.1 ≠ k))

/-- The assignment `m[k] = v`: the old entry for `k`, if any, is replaced. -/
def mapInsert {κ ν : Type} [DecidableEq κ] (m : List (κ × ν)) (k : κ) (v : ν) : List (κ × ν) :=
  (k, v) :: mapDelete m k

/-! ## Data model -/

/-- Identity of a `context.Context`. -/
abbrev Context := Nat

/-- Identity of a `context.CancelFunc`: the context it cancels. -/
abbrev CancelFunc := Nat

/-- Identity of an upstream `clientv3.WatchChan`. -/
abbrev WatchChan := Nat

/-- Identity of a client-facing response channel (`chan *pb.WatchResponse`). -/
abbrev RespChan := Nat

/-- Address of a heap-allocated `watcherGroup` (a Go `*watcherGroup`). -/
abbrev Ptr := Nat

/-- The key interval of a watch, used as `w.wr.key` and `w.wr.end`. -/
structure watchRange where
  key : String
  end_ : String
deriving DecidableEq, Repr

/-- The composite identity `receiverID{streamID, watcherID}`. -/
structure receiverID where
  streamID : Int
  watcherID : Int
deriving DecidableEq, Repr

/-- The fields of a server watch stream that the registry touches:
`sws.id`, `sws.watchCh` and `sws.ctx`. -/
structure serverWatchStream where
  id : Int
  watchCh : RespChan
  ctx : Context
deriving DecidableEq, Repr

/-- The fields of a `watcher` that the registry touches: `w.id`, `w.wr`, `w.sws`. -/
structure watcher where
  id : Int
  wr : watchRange
  sws : serverWatchStream
deriving DecidableEq, Repr

/-- The `pb.ResponseHeader` fields filled in by the registry. -/
structure ResponseHeader where
  Revision : Int
deriving DecidableEq, Repr

/-- The `pb.WatchResponse` fields filled in by the registry. -/
structure WatchResponse where
  Header : ResponseHeader
  WatchId : Int
  Created : Bool
deriving DecidableEq, Repr

/-- Options handed to `cw.Watch`. -/
inductive OpOption where
  | WithRange (endKey : String)
  | WithProgressNotify
  | WithCreatedNotify
deriving DecidableEq, Repr

/-- Externally visible actions performed by registry calls, in program order. -/
inductive Event where
  /-- The call `context.WithCancel(parent)` returning the context `child`. -/
  | withCancel (parent child : Context)
  /-- The call `cw.Watch(ctx, key, opts...)` returning the channel `wch`. -/
  | watch (ctx : Context) (key : String) (opts : List OpOption) (wch : WatchChan)
  /-- The statement `go wg.run()` for the group at address `wg`. -/
  | goRun (wg : Ptr)
  /-- The statement `select { case watchCh <- resp: case <-done.Done(): }`. -/
  | send (watchCh : RespChan) (done : Context) (resp : WatchResponse)
  /-- An invocation of the cancel function `c`. -/
  | cancel (c : CancelFunc)
deriving DecidableEq, Repr

/-- Modelled from the spec: the `watcherGroup` type is declared outside
`watcher_groups.go`.  The spec's WatchGroup owns an upstream subscription
handle, its cancellation token, the set of current receivers, the last-observed
revision and a running/stopped flag. -/
structure watcherGroup where
  ch : WatchChan
  cancel : CancelFunc
  receivers : List (receiverID × watcher)
  rev : Int
  stopped : Bool
deriving DecidableEq, Repr

/-- Modelled from the spec: the constructor `newWatchergroup(wch, cancel)` is
defined outside this file.  A new group wraps the given subscription and
cancellation token, has no receivers, is running, and its revision starts at
the "uninitialized" sentinel 0. -/
def newWatchergroup (wch : WatchChan) (c : CancelFunc) : watcherGroup :=
  { ch := wch, cancel := c, receivers := [], rev := 0, stopped := false }

/-- Modelled from the spec: `watcherGroup.add` is defined outside this file.
It inserts the receiver and returns the group's current last-observed revision,
or the rejected sentinel `-1` (inserting nothing) when the group is already
stopped. -/
def watcherGroup.add (g : watcherGroup) (rid : receiverID) (w : watcher) : Int × watcherGroup :=
  if g.stopped then (-1, g)
  else (g.rev, { g with receivers := mapInsert g.receivers rid w })

/-- Modelled from the spec: `watcherGroup.delete` is defined outside this file.
It removes the receiver if present and is a no-op otherwise. -/
def watcherGroup.delete (g : watcherGroup) (rid : receiverID) : watcherGroup :=
  { g with receivers := mapDelete g.receivers rid }

/-- Modelled from the spec: `watcherGroup.isEmpty` is defined outside this file;
a pure accessor telling whether the receiver set is empty. -/
def watcherGroup.isEmpty (g : watcherGroup) : Bool :=
  g.receivers.isEmpty

/-- Modelled from the spec: `watcherGroup.revision` is defined outside this file;
a pure accessor for the last-observed revision. -/
def watcherGroup.revision (g : watcherGroup) : Int :=
  g.rev

/-- Modelled from the spec: `watcherGroup.stop` is defined outside this file.
It is idempotent on the group and cancels the upstream subscription by invoking
the group's cancellation token. -/
def watcherGroup.stop (g : watcherGroup) : watcherGroup × List Event :=
  ({ g with stopped := true }, [Event.cancel g.cancel])

/-- The fields of a `watcherSingle` that the registry touches: `ws.sws`, `ws.w`,
`ws.ch`, `ws.cancel`, and the promotability flag behind `ws.canPromote()`. -/
structure watcherSingle where
  sws : serverWatchStream
  w : watcher
  ch : WatchChan
  cancel : CancelFunc
  promotable : Bool
deriving DecidableEq, Repr

/-- Modelled from the spec: `watcherSingle.canPromote` is defined outside this
file; it reports the single watcher's promotability flag. -/
def watcherSingle.canPromote (ws : watcherSingle) : Bool :=
  ws.promotable

/-- The `watchergroups` struct.  `groups` is `none` when the Go map is `nil`
(`stop` assigns `nil` to it); `idToGroup` is never reassigned by the source.
The mutex `mu` is not represented: every method holds it from entry to exit.
The client `cw` is represented by the `Event.watch` entries of the log. -/
structure watchergroups where
  groups : Option (List (watchRange × Ptr))
  idToGroup : List (receiverID × Ptr)
  proxyCtx : Context

/-- The registry together with the heap of `watcherGroup` objects its maps
point into, the allocation counters, and the log of external actions. -/
structure State where
  wgs : watchergroups
  heap : Ptr → watcherGroup
  nextPtr : Ptr
  nextCtx : Context
  nextCh : WatchChan
  log : List Event

/-- Outcome of a registry call: `ret = none` when the call panicked
(assignment to an entry of a `nil` map), together with the state it left. -/
structure Result (α : Type) where
  ret : Option α
  state : State

/-- Reading `groups[wr]`; reading a `nil` map finds nothing. -/
def groupsLookup (groups : Option (List (watchRange × Ptr))) (wr : watchRange) : Option Ptr :=
  match groups with
  | none => none
  | some m => mapLookup m wr

/-! ## Registry operations -/

/-- The method `watchergroups.addWatcher` (lines 36-84). -/
def addWatcher (s : State) (rid : receiverID) (w : watcher) : Result Unit :=
  let groups := s.wgs.groups
  match groupsLookup groups w.wr with
  | some wg =>
    let r := (s.heap wg).add rid w
    let rev := r.1
    let s1 : State :=
      { s with
        heap := Function.update s.heap wg r.2
        wgs := { s.wgs with idToGroup := mapInsert s.wgs.idToGroup rid wg } }
    if rev = 0 then
      ⟨some (), s1⟩
    else
      let resp : WatchResponse :=
        { Header := { Revision := rev }, WatchId := rid.watcherID, Created := true }
      ⟨some (), { s1 with log := s1.log ++ [Event.send w.sws.watchCh w.sws.ctx resp] }⟩
  | none =>
    let ctx : Context := s.nextCtx
    let cancel : CancelFunc := ctx
    let wch : WatchChan := s.nextCh
    let opts := [OpOption.WithRange w.wr.end_, OpOption.WithProgressNotify,
      OpOption.WithCreatedNotify]
    let watchg := newWatchergroup wch cancel
    let p : Ptr := s.nextPtr
    let s1 : State :=
      { s with
        heap := Function.update s.heap p (watchg.add rid w).2
        nextPtr := s.nextPtr + 1
        nextCtx := s.nextCtx + 1
        nextCh := s.nextCh + 1
        log := s.log ++ [Event.withCancel s.wgs.proxyCtx ctx,
          Event.watch ctx w.wr.key opts wch, Event.goRun p] }
    match groups with
    | none => ⟨none, s1⟩
    | some m =>
      ⟨some (),
        { s1 with
          wgs := { s1.wgs with
            groups := some (mapInsert m w.wr p)
            idToGroup := mapInsert s1.wgs.idToGroup rid p } }⟩

/-- The method `watchergroups.removeWatcher` (lines 86-99). -/
def removeWatcher (s : State) (rid : receiverID) : Result (Int × Bool) :=
  match mapLookup s.wgs.idToGroup rid with
  | some g =>
    let s1 : State := { s with heap := Function.update s.heap g ((s.heap g).delete rid) }
    let s2 : State := { s1 with wgs := { s1.wgs with idToGroup := mapDelete s1.wgs.idToGroup rid } }
    let s3 : State :=
      if (s2.heap g).isEmpty then
        { s2 with
          heap := Function.update s2.heap g (s2.heap g).stop.1
          log := s2.log ++ (s2.heap g).stop.2 }
      else s2
    ⟨some ((s3.heap g).revision, true), s3⟩
  | none => ⟨some (-1, false), s⟩

/-- The method `watchergroups.maybeJoinWatcherSingle` (lines 101-119). -/
def maybeJoinWatcherSingle (s : State) (ws : watcherSingle) : Result Bool :=
  let rid : receiverID := { streamID := ws.sws.id, watcherID := ws.w.id }
  match groupsLookup s.wgs.groups ws.w.wr with
  | some group =>
    let r := (s.heap group).add rid ws.w
    ⟨some (decide (r.1 ≠ -1)), { s with heap := Function.update s.heap group r.2 }⟩
  | none =>
    if !ws.canPromote then
      ⟨some false, s⟩
    else
      let wg : Ptr := s.nextPtr
      let s1 : State :=
        { s with
          heap := Function.update s.heap wg (newWatchergroup ws.ch ws.cancel)
          nextPtr := s.nextPtr + 1 }
      match s1.wgs.groups with
      | none => ⟨none, s1⟩
      | some m =>
        let s2 : State :=
          { s1 with
            wgs := { s1.wgs with
              groups := some (mapInsert m ws.w.wr wg)
              idToGroup := mapInsert s1.wgs.idToGroup rid wg } }
        ⟨some true,
          { s2 with
            heap := Function.update s2.heap wg ((s2.heap wg).add rid ws.w).2
            log := s2.log ++ [Event.goRun wg] }⟩

/-- One `wg.stop()` of the loop in `watchergroups.stop`. -/
def stopGroup (s : State) (wg : Ptr) : State :=
  { s with
    heap := Function.update s.heap wg (s.heap wg).stop.1
    log := s.log ++ (s.heap wg).stop.2 }

/-- The method `watchergroups.stop` (lines 121-128).  The groups are visited in
the order of the association list; Go leaves the order unspecified. -/
def stop (s : State) : Result Unit :=
  let s1 : State :=
    match s.wgs.groups with
    | none => s
    | some m => m.foldl (fun st e => stopGroup st e.2) s
  ⟨some (), { s1 with wgs := { s1.wgs with groups := none } }⟩

/-- Modelled from the spec: the constructor of `watchergroups` is outside this
file.  A fresh registry has both maps allocated and empty, and holds the
proxy-wide cancellation scope. -/
def emptyRegistry (proxyCtx : Context) : State :=
  { wgs := { groups := some [], idToGroup := [], proxyCtx := proxyCtx }
    heap := fun _ => newWatchergroup 0 0
    nextPtr := 0
    nextCtx := proxyCtx + 1
    nextCh := 0
    log := [] }

/-- A call on the registry's surface. -/
inductive Call where
  | addWatcher (rid : receiverID) (w : watcher)
  | removeWatcher (rid : receiverID)
  | maybeJoinWatcherSingle (ws : watcherSingle)

/-- The state after one call, `none` when the call panicked. -/
def Call.run (s : State) : Call → Option State
  | Call.addWatcher rid w =>
    (GrpcProxy.addWatcher s rid w).ret.map (fun _ => (GrpcProxy.addWatcher s rid w).state)
  | Call.removeWatcher rid =>
    (GrpcProxy.removeWatcher s rid).ret.map (fun _ => (GrpcProxy.removeWatcher s rid).state)
  | Call.maybeJoinWatcherSingle ws =>
    (GrpcProxy.maybeJoinWatcherSingle s ws).ret.map
      (fun _ => (GrpcProxy.maybeJoinWatcherSingle s ws).state)

/-- The state after a sequence of calls, `none` as soon as one of them panics. -/
def runCalls (s : State) : List Call → Option State
  | [] => some s
  | c :: cs => (Call.run s c).bind (fun s1 => runCalls s1 cs)

/-- The upstream subscriptions opened so far: the `cw.Watch` entries of a log. -/
def watchCalls (log : List Event) : List Event :=
  log.filter (fun e => match e with | Event.watch _ _ _ _ => true | _ => false)

/-- The synthetic acknowledgments attempted so far: the `send` entries of a log. -/
def sendCalls (log : List Event) : List Event :=
  log.filter (fun e => match e with | Event.send _ _ _ => true | _ => false)

/-- Whether an event is a `cw.Watch` call on the key of `R` with range end `R.end`. -/
def opensRange (R : watchRange) : Event → Bool
  | Event.watch _ key opts _ => decide (key = R.key) && decide (OpOption.WithRange R.end_ ∈ opts)
  | _ => false

/-- The upstream subscriptions opened so far for the range `R`. -/
def watchCallsFor (R : watchRange) (log : List Event) : List Event :=
  log.filter (opensRange R)

/-- Membership of a receiver identity in a group's receiver set. -/
def watcherGroup.hasReceiver (g : watcherGroup) (rid : receiverID) : Bool :=
  (mapLookup g.receivers rid).isSome

/-- Invariant I1 of the spec: every identity in the reverse map names a group
whose receiver set contains it. -/
def I1 (s : State) : Prop :=
  ∀ rid g, mapLookup s.wgs.idToGroup rid = some g → (s.heap g).hasReceiver rid = true

/-- Modelled from the spec: the fan-out task `watcherGroup.run` is defined
outside this file.  On reading an upstream event it updates the group's
last-observed revision, which never decreases. -/
def watcherGroup.broadcast (g : watcherGroup) (rev : Int) : watcherGroup :=
  { g with rev := max g.rev rev }

/-- One step of the fan-out task of the group at `wg` on an upstream event at
revision `rev`.  The task runs outside the registry's calls; its deliveries to
the receivers are not actions of the registry and are not logged. -/
def fanOut (s : State) (wg : Ptr) (rev : Int) : State :=
  { s with heap := Function.update s.heap wg ((s.heap wg).broadcast rev) }

/-- The range map is allocated and every group referenced from the reverse map
is also registered in the range map. -/
def Linked (s : State) : Prop :=
  ∃ m, s.wgs.groups = some m ∧
    ∀ rid p, mapLookup s.wgs.idToGroup rid = some p → ∃ R, mapLookup m R = some p

/-- The schedules of two threads of calls: since every registry method holds
`wgs.mu` from entry to exit, a concurrent execution of the two threads performs
their calls one at a time in some order that keeps each thread's own order. -/
inductive Interleaving : List Call → List Call → List Call → Prop where
  | nil : Interleaving [] [] []
  | left (c : Call) {xs ys zs : List Call} :
    Interleaving xs ys zs → Interleaving (c :: xs) ys (c :: zs)
  | right (c : Call) {xs ys zs : List Call} :
    Interleaving xs ys zs → Interleaving xs (c :: ys) (c :: zs)

/-- A step of the running proxy as seen by the registry: a call on its surface,
or a step of the fan-out task of the group at `wg` observing revision `rev`. -/
inductive Step where
  | call (c : Call)
  | fanOut (wg : Ptr) (rev : Int)

/-- The state after one step, `none` when the step is a call that panicked. -/
def Step.run (s : State) : Step → Option State
  | Step.call c => Call.run s c
  | Step.fanOut wg rev => some (GrpcProxy.fanOut s wg rev)

/-- The state after a sequence of steps, `none` as soon as one of them panics. -/
def runSteps (s : State) : List Step → Option State
  | [] => some s
  | st :: rest => (Step.run s st).bind (fun s1 => runSteps s1 rest)

/-! ## Sample values used to exercise the statements -/

/-- A receiver identity on stream 1. -/
def ridA : receiverID := { streamID := 1, watcherID := 10 }

/-- A receiver identity on stream 2. -/
def ridB : receiverID := { streamID := 2, watcherID := 20 }

/-- The watched range `[a, b)`. -/
def rangeR : watchRange := { key := "a", end_ := "b" }

/-- A watcher on `rangeR` owned by stream 1. -/
def watcherA : watcher :=
  { id := 10, wr := rangeR, sws := { id := 1, watchCh := 100, ctx := 200 } }

/-- A watcher on `rangeR` owned by stream 2. -/
def watcherB : watcher :=
  { id := 20, wr := rangeR, sws := { id := 2, watchCh := 101, ctx := 201 } }

/-- A promotable single watcher on `rangeR` with its own upstream subscription. -/
def singleB : watcherSingle :=
  { sws := { id := 2, watchCh := 101, ctx := 201 }, w := watcherB, ch := 77, cancel := 88,
    promotable := true }

/-- A single watcher on `rangeR` that cannot be promoted. -/
def singleFrozen : watcherSingle :=
  { sws := { id := 2, watchCh := 101, ctx := 201 }, w := watcherB, ch := 77, cancel := 88,
    promotable := false }

/-- The registry after `addWatcher(ridA, watcherA)` on a fresh registry. -/
def stateA : State := (addWatcher (emptyRegistry 0) ridA watcherA).state

/-- The state `stateA` once the fan-out task of its group has observed revision 5. -/
def stateA5 : State :=
  { stateA with heap := Function.update stateA.heap 0 { stateA.heap 0 with rev := 5 } }

/-- The registry `stateA` after `removeWatcher(ridA)`: its only group is empty
and stopped but still registered for `rangeR`. -/
def stateStale : State := (removeWatcher stateA ridA).state

/-- A fresh registry after `stop()`: the range map is `nil`. -/
def stateStopped : State := (stop (emptyRegistry 0)).state

/-- The registry `stateA5` after `removeWatcher(ridA)`: its only group is empty
and stopped, with last-observed revision 5, and still registered for `rangeR`. -/
def stateStale5 : State := (removeWatcher stateA5 ridA).state

/-- The registry `stateA5` after `addWatcher(ridB, watcherB)`: group 0 holds both
receivers. -/
def stateAB : State := (addWatcher stateA5 ridB watcherB).state

/-- The scenario of the spec, step 2: the fan-out task of group 0 of `stateA`
has observed revision 5. -/
def scenario2 : State := fanOut stateA 0 5

/-- The scenario of the spec, step 3: `addWatcher(ridB, watcherB)`. -/
def scenario3 : State := (addWatcher scenario2 ridB watcherB).state

/-- The scenario of the spec, step 4: `removeWatcher(ridA)`. -/
def scenario4 : State := (removeWatcher scenario3 ridA).state

/-- The scenario of the spec, step 5: `removeWatcher(ridB)`. -/
def scenario5 : State := (removeWatcher scenario4 ridB).state

/-! ## Lemmas on Go maps -/

theorem mapLookup_mapDelete_self {κ ν : Type} [DecidableEq κ] (m : List (κ × ν)) (k : κ) :
    mapLookup (mapDelete m k) k = none := by
  induction m with
  | nil => rfl
  | cons e rest ih =>
    obtain ⟨k1, v⟩ := e
    by_cases hk : k1 = k
    · simpa [mapDelete, hk] using ih
    · simpa [mapDelete, hk, mapLookup] using ih

theorem mapLookup_mapDelete_ne {κ ν : Type} [DecidableEq κ] (m : List (κ × ν)) (k j : κ)
    (hne : k ≠ j) : mapLookup (mapDelete m k) j = mapLookup m j := by
  induction m with
  | nil => rfl
  | cons e rest ih =>
    obtain ⟨k1, v⟩ := e
    by_cases hk : k1 = k
    · have hj : k1 ≠ j := by rw [hk]; exact hne
      simpa [mapDelete, hk, mapLookup, hne] using ih
    · by_cases hj : k1 = j
      · subst hj
        simp [mapDelete, hk, mapLookup]
      · simpa [mapDelete, hk, mapLookup, hj] using ih

theorem mapLookup_mapInsert_self {κ ν : Type} [DecidableEq κ] (m : List (κ × ν)) (k : κ)
    (v : ν) : mapLookup (mapInsert m k v) k = some v := by
  simp [mapInsert, mapLookup]

theorem mapLookup_mapInsert_ne {κ ν : Type} [DecidableEq κ] (m : List (κ × ν)) (k j : κ)
    (v : ν) (hne : k ≠ j) : mapLookup (mapInsert m k v) j = mapLookup m j := by
  simp [mapInsert, mapLookup, hne, mapLookup_mapDelete_ne m k j hne]

/-! ## `removeWatcher` -/

/-- C1: for a receiverID with no entry in the reverse map, `removeWatcher`
returns `(-1, false)` and the state it leaves is the state it was given: both
maps, the whole heap of groups (receiver sets, revisions, stopped flags) and
the log of external actions. -/
theorem removeWatcher_unknown (s : State) (rid : receiverID)
    (h : mapLookup s.wgs.idToGroup rid = none) :
    removeWatcher s rid = ⟨some (-1, false), s⟩ := by
  simp [removeWatcher, h]

/-- Witness for `removeWatcher_unknown`: `ridB` is unknown to `stateA`. -/
theorem removeWatcher_unknown_witness :
    mapLookup stateA.wgs.idToGroup ridB = none ∧
      removeWatcher stateA ridB = ⟨some (-1, false), stateA⟩ :=
  ⟨by decide, removeWatcher_unknown stateA ridB (by decide)⟩

/-- C2: for a receiverID registered to the group at `g`, `removeWatcher` returns
`(r, true)` with `r` the last-observed revision of that group, and afterwards
the identity is absent from the group's receiver set and from the reverse map. -/
theorem removeWatcher_known (s : State) (rid : receiverID) (g : Ptr)
    (h : mapLookup s.wgs.idToGroup rid = some g) :
    (removeWatcher s rid).ret = some ((s.heap g).revision, true) ∧
      ((removeWatcher s rid).state.heap g).hasReceiver rid = false ∧
      mapLookup (removeWatcher s rid).state.wgs.idToGroup rid = none := by
  simp only [removeWatcher, h]
  by_cases he : (mapDelete (s.heap g).receivers rid).isEmpty = true
  · simp [watcherGroup.delete, watcherGroup.isEmpty, watcherGroup.stop, watcherGroup.revision,
      watcherGroup.hasReceiver, he, mapLookup_mapDelete_self]
  · simp [watcherGroup.delete, watcherGroup.isEmpty, watcherGroup.revision,
      watcherGroup.hasReceiver, he, mapLookup_mapDelete_self]

/-- Witness for `removeWatcher_known`: `ridA` is registered to group 0 of `stateA5`. -/
theorem removeWatcher_known_witness :
    mapLookup stateA5.wgs.idToGroup ridA = some 0 ∧
      (removeWatcher stateA5 ridA).ret = some (5, true) ∧
      ((removeWatcher stateA5 ridA).state.heap 0).hasReceiver ridA = false ∧
      mapLookup (removeWatcher stateA5 ridA).state.wgs.idToGroup ridA = none :=
  ⟨by decide, removeWatcher_known stateA5 ridA 0 (by decide)⟩

/-- C3: for a receiverID registered to the group at `g`, `removeWatcher` stops
the group exactly when its receiver set is empty once the identity is deleted:
in that case the group's cancel function is invoked once and the group is
stopped; otherwise no external action is performed and the stopped flag keeps
its value. -/
theorem removeWatcher_stops_iff_empty (s : State) (rid : receiverID) (g : Ptr)
    (h : mapLookup s.wgs.idToGroup rid = some g) :
    (((s.heap g).delete rid).isEmpty = true →
        (removeWatcher s rid).state.log = s.log ++ [Event.cancel (s.heap g).cancel] ∧
        ((removeWatcher s rid).state.heap g).stopped = true) ∧
      (((s.heap g).delete rid).isEmpty = false →
        (removeWatcher s rid).state.log = s.log ∧
        ((removeWatcher s rid).state.heap g).stopped = (s.heap g).stopped) := by
  constructor
  · intro he
    simp only [removeWatcher, h, Function.update_same, he, if_true]
    simp [watcherGroup.stop, watcherGroup.delete]
  · intro he
    simp only [removeWatcher, h, Function.update_same, he]
    simp [watcherGroup.delete]

/-- Witness for `removeWatcher_stops_iff_empty`: removing the only receiver of
group 0 of `stateA` invokes its cancel function and stops it. -/
theorem removeWatcher_stops_iff_empty_witness :
    mapLookup stateA.wgs.idToGroup ridA = some 0 ∧
      ((stateA.heap 0).delete ridA).isEmpty = true ∧
      (removeWatcher stateA ridA).state.log = stateA.log ++ [Event.cancel (stateA.heap 0).cancel] ∧
      ((removeWatcher stateA ridA).state.heap 0).stopped = true :=
  ⟨by decide, by decide,
    (removeWatcher_stops_iff_empty stateA ridA 0 (by decide)).1 (by decide)⟩

/-! ## `addWatcher`: joining an existing group -/

/-- C6: when `addWatcher` finds a group for the watcher's range and the group's
`add` returns revision 0, the call performs no external action at all (no
acknowledgment is sent); when `add` returns a revision above 0, the call
performs exactly one external action: one delivery attempt of the response
`{Header.Revision = rev, WatchId = rid.watcherID, Created = true}` on the
watcher's own channel, raced against the watcher's own cancellation signal. -/
theorem addWatcher_join_ack (s : State) (rid : receiverID) (w : watcher) (wg : Ptr)
    (h : groupsLookup s.wgs.groups w.wr = some wg) :
    (((s.heap wg).add rid w).1 = 0 → (addWatcher s rid w).state.log = s.log) ∧
      (0 < ((s.heap wg).add rid w).1 →
        (addWatcher s rid w).state.log = s.log ++ [Event.send w.sws.watchCh w.sws.ctx
          { Header := { Revision := ((s.heap wg).add rid w).1 }, WatchId := rid.watcherID,
            Created := true }]) := by
  constructor
  · intro h0
    simp [addWatcher, h, h0]
  · intro hpos
    have hne : ((s.heap wg).add rid w).1 ≠ 0 := by omega
    simp [addWatcher, h, hne]

/-- Witness for `addWatcher_join_ack`: joining group 0 of `stateA5`, whose
revision is 5, attempts one acknowledgment at revision 5 to `watcherB`. -/
theorem addWatcher_join_ack_witness :
    groupsLookup stateA5.wgs.groups watcherB.wr = some 0 ∧
      0 < ((stateA5.heap 0).add ridB watcherB).1 ∧
      (addWatcher stateA5 ridB watcherB).state.log = stateA5.log ++
        [Event.send watcherB.sws.watchCh watcherB.sws.ctx
          { Header := { Revision := ((stateA5.heap 0).add ridB watcherB).1 },
            WatchId := ridB.watcherID, Created := true }] :=
  ⟨by decide, by decide, (addWatcher_join_ack stateA5 ridB watcherB 0 (by decide)).2 (by decide)⟩

/-- C7: evaluation at the failing input.  In `stateStale` the group registered
for `rangeR` is stopped, so its `add` rejects `ridB` with `-1`; `addWatcher`
nevertheless records `ridB` in the reverse map against that group, leaves the
group without that receiver, and attempts an acknowledgment at revision `-1`. -/
theorem addWatcher_registers_rejected_receiver :
    groupsLookup stateStale.wgs.groups watcherB.wr = some 0 ∧
      (stateStale.heap 0).stopped = true ∧
      ((stateStale.heap 0).add ridB watcherB).1 = -1 ∧
      mapLookup stateStale.wgs.idToGroup ridB = none ∧
      mapLookup (addWatcher stateStale ridB watcherB).state.wgs.idToGroup ridB = some 0 ∧
      ((addWatcher stateStale ridB watcherB).state.heap 0).hasReceiver ridB = false ∧
      (addWatcher stateStale ridB watcherB).state.log = stateStale.log ++
        [Event.send 101 201 { Header := { Revision := -1 }, WatchId := 20, Created := true }] := by
  decide

/-- C5: evaluation at the failing input.  From a fresh registry, the calls
`addWatcher(ridA, watcherA)`, `removeWatcher(ridA)`, `addWatcher(ridB, watcherB)`
all return, and the state they leave violates I1: `ridB` is in the reverse map,
mapped to group 0, whose receiver set does not contain it. -/
theorem I1_broken_by_join_of_stopped_group :
    ∃ s, runCalls (emptyRegistry 0)
        [Call.addWatcher ridA watcherA, Call.removeWatcher ridA,
          Call.addWatcher ridB watcherB] = some s ∧
      mapLookup s.wgs.idToGroup ridB = some 0 ∧
      (s.heap 0).hasReceiver ridB = false ∧
      ¬ I1 s := by
  refine ⟨_, rfl, by decide, by decide, ?_⟩
  intro hI
  have hb := hI ridB 0 (by decide)
  revert hb
  decide

/-! ## `addWatcher`: creating a group -/

/-- C8 as stated fails on a registry whose range map is `nil`: after `stop()`
no group exists for `rangeR`, yet `addWatcher(ridA, watcherA)` panics on the
assignment `groups[w.wr] = watchg`, and neither map gains an entry. -/
theorem addWatcher_create_panics_after_stop :
    groupsLookup stateStopped.wgs.groups watcherA.wr = none ∧
      (addWatcher stateStopped ridA watcherA).ret = none ∧
      groupsLookup (addWatcher stateStopped ridA watcherA).state.wgs.groups watcherA.wr = none ∧
      mapLookup (addWatcher stateStopped ridA watcherA).state.wgs.idToGroup ridA = none := by
  decide

/-- C8 (amended): when the range map is allocated and holds no group for
`w.wr`, `addWatcher` returns; its external actions are exactly: deriving a
cancellable context from `proxyCtx`, one `cw.Watch` on `w.wr.key` under that
context with range end `w.wr.end`, progress notifications and created
notification, and starting the new group's fan-out task (so no acknowledgment
is sent); the new group is built around the returned channel and the cancel
function of the derived context, its receiver set is exactly `{rid}`, and
`groups[w.wr]` and `idToGroup[rid]` both point to it. -/
theorem addWatcher_create (s : State) (rid : receiverID) (w : watcher)
    (m : List (watchRange × Ptr)) (hm : s.wgs.groups = some m)
    (hno : mapLookup m w.wr = none) :
    (addWatcher s rid w).ret = some () ∧
      (addWatcher s rid w).state.log = s.log ++
        [Event.withCancel s.wgs.proxyCtx s.nextCtx,
          Event.watch s.nextCtx w.wr.key
            [OpOption.WithRange w.wr.end_, OpOption.WithProgressNotify,
              OpOption.WithCreatedNotify] s.nextCh,
          Event.goRun s.nextPtr] ∧
      (addWatcher s rid w).state.heap s.nextPtr =
        { ch := s.nextCh, cancel := s.nextCtx, receivers := [(rid, w)], rev := 0,
          stopped := false } ∧
      groupsLookup (addWatcher s rid w).state.wgs.groups w.wr = some s.nextPtr ∧
      mapLookup (addWatcher s rid w).state.wgs.idToGroup rid = some s.nextPtr := by
  have hl : groupsLookup s.wgs.groups w.wr = none := by simp [groupsLookup, hm, hno]
  simp only [addWatcher, hl]
  simp only [hm]
  simp [groupsLookup, mapLookup, newWatchergroup, watcherGroup.add, mapInsert, mapDelete]

/-- Witness for `addWatcher_create`: the first `addWatcher` on a fresh registry. -/
theorem addWatcher_create_witness :
    (emptyRegistry 0).wgs.groups = some [] ∧
      mapLookup ([] : List (watchRange × Ptr)) watcherA.wr = none ∧
      (addWatcher (emptyRegistry 0) ridA watcherA).ret = some () ∧
      (addWatcher (emptyRegistry 0) ridA watcherA).state.log = (emptyRegistry 0).log ++
        [Event.withCancel (emptyRegistry 0).wgs.proxyCtx (emptyRegistry 0).nextCtx,
          Event.watch (emptyRegistry 0).nextCtx watcherA.wr.key
            [OpOption.WithRange watcherA.wr.end_, OpOption.WithProgressNotify,
              OpOption.WithCreatedNotify] (emptyRegistry 0).nextCh,
          Event.goRun (emptyRegistry 0).nextPtr] ∧
      (addWatcher (emptyRegistry 0) ridA watcherA).state.heap (emptyRegistry 0).nextPtr =
        { ch := (emptyRegistry 0).nextCh, cancel := (emptyRegistry 0).nextCtx,
          receivers := [(ridA, watcherA)], rev := 0, stopped := false } ∧
      groupsLookup (addWatcher (emptyRegistry 0) ridA watcherA).state.wgs.groups watcherA.wr =
        some (emptyRegistry 0).nextPtr ∧
      mapLookup (addWatcher (emptyRegistry 0) ridA watcherA).state.wgs.idToGroup ridA =
        some (emptyRegistry 0).nextPtr :=
  ⟨rfl, rfl, addWatcher_create (emptyRegistry 0) ridA watcherA [] rfl rfl⟩

/-! ## `maybeJoinWatcherSingle` -/

/-- C9: for a single watcher that cannot be promoted and a registry with no
group for its range, `maybeJoinWatcherSingle` returns false and leaves the
state exactly as it was: both maps, every group (so no group received `ws.ch`),
and the log (so no upstream subscription was opened and no cancel function,
`ws.cancel` included, was invoked). -/
theorem maybeJoinWatcherSingle_not_promotable (s : State) (ws : watcherSingle)
    (hp : ws.canPromote = false) (hno : groupsLookup s.wgs.groups ws.w.wr = none) :
    maybeJoinWatcherSingle s ws = ⟨some false, s⟩ := by
  simp [maybeJoinWatcherSingle, hno, hp]

/-- Witness for `maybeJoinWatcherSingle_not_promotable`: `singleFrozen` on a
fresh registry. -/
theorem maybeJoinWatcherSingle_not_promotable_witness :
    singleFrozen.canPromote = false ∧
      groupsLookup (emptyRegistry 0).wgs.groups singleFrozen.w.wr = none ∧
      maybeJoinWatcherSingle (emptyRegistry 0) singleFrozen = ⟨some false, emptyRegistry 0⟩ :=
  ⟨rfl, rfl, maybeJoinWatcherSingle_not_promotable (emptyRegistry 0) singleFrozen rfl rfl⟩

/-- C10 as stated fails on a registry whose range map is `nil`: after `stop()`
no group exists for `rangeR` and `singleB` is promotable, yet
`maybeJoinWatcherSingle(singleB)` panics on the assignment
`wgs.groups[ws.w.wr] = wg` instead of returning true, and neither map gains an
entry. -/
theorem maybeJoinWatcherSingle_panics_after_stop :
    singleB.canPromote = true ∧
      groupsLookup stateStopped.wgs.groups singleB.w.wr = none ∧
      (maybeJoinWatcherSingle stateStopped singleB).ret = none ∧
      groupsLookup (maybeJoinWatcherSingle stateStopped singleB).state.wgs.groups
        singleB.w.wr = none ∧
      mapLookup (maybeJoinWatcherSingle stateStopped singleB).state.wgs.idToGroup
        { streamID := singleB.sws.id, watcherID := singleB.w.id } = none := by
  decide

/-- C10 (amended): for a promotable single watcher and a registry whose range
map is allocated and holds no group for its range, `maybeJoinWatcherSingle`
returns true; afterwards `groups[ws.w.wr]` is a newly allocated group whose
upstream channel and cancel function are `ws.ch` and `ws.cancel`, whose
receiver set is `{rid}` with `rid = {ws.sws.id, ws.w.id}`, `idToGroup[rid]` is
that same group, and the only external action is starting the group's fan-out
task (no `cw.Watch` call). -/
theorem maybeJoinWatcherSingle_promote (s : State) (ws : watcherSingle)
    (m : List (watchRange × Ptr)) (hm : s.wgs.groups = some m)
    (hno : mapLookup m ws.w.wr = none) (hp : ws.canPromote = true) :
    (maybeJoinWatcherSingle s ws).ret = some true ∧
      groupsLookup (maybeJoinWatcherSingle s ws).state.wgs.groups ws.w.wr = some s.nextPtr ∧
      (maybeJoinWatcherSingle s ws).state.heap s.nextPtr =
        { ch := ws.ch, cancel := ws.cancel,
          receivers := [({ streamID := ws.sws.id, watcherID := ws.w.id }, ws.w)], rev := 0,
          stopped := false } ∧
      mapLookup (maybeJoinWatcherSingle s ws).state.wgs.idToGroup
        { streamID := ws.sws.id, watcherID := ws.w.id } = some s.nextPtr ∧
      (maybeJoinWatcherSingle s ws).state.log = s.log ++ [Event.goRun s.nextPtr] := by
  have hl : groupsLookup s.wgs.groups ws.w.wr = none := by simp [groupsLookup, hm, hno]
  simp only [maybeJoinWatcherSingle, hl, hp]
  simp only [hm]
  simp [groupsLookup, mapLookup, newWatchergroup, watcherGroup.add, mapInsert, mapDelete]

/-- Witness for `maybeJoinWatcherSingle_promote`: `singleB` on a fresh registry. -/
theorem maybeJoinWatcherSingle_promote_witness :
    (emptyRegistry 0).wgs.groups = some [] ∧
      mapLookup ([] : List (watchRange × Ptr)) singleB.w.wr = none ∧
      singleB.canPromote = true ∧
      (maybeJoinWatcherSingle (emptyRegistry 0) singleB).ret = some true ∧
      groupsLookup (maybeJoinWatcherSingle (emptyRegistry 0) singleB).state.wgs.groups
        singleB.w.wr = some (emptyRegistry 0).nextPtr ∧
      (maybeJoinWatcherSingle (emptyRegistry 0) singleB).state.heap (emptyRegistry 0).nextPtr =
        { ch := singleB.ch, cancel := singleB.cancel,
          receivers := [({ streamID := singleB.sws.id, watcherID := singleB.w.id }, singleB.w)],
          rev := 0, stopped := false } ∧
      mapLookup (maybeJoinWatcherSingle (emptyRegistry 0) singleB).state.wgs.idToGroup
        { streamID := singleB.sws.id, watcherID := singleB.w.id } =
          some (emptyRegistry 0).nextPtr ∧
      (maybeJoinWatcherSingle (emptyRegistry 0) singleB).state.log =
        (emptyRegistry 0).log ++ [Event.goRun (emptyRegistry 0).nextPtr] :=
  ⟨rfl, rfl, rfl, maybeJoinWatcherSingle_promote (emptyRegistry 0) singleB [] rfl rfl rfl⟩

/-! ## One group per range -/

theorem watchRange_ne_fields (R1 R2 : watchRange) (hne : R1 ≠ R2) :
    ¬ (R1.key = R2.key ∧ R1.end_ = R2.end_) := by
  rintro ⟨hk, he⟩
  apply hne
  cases R1
  cases R2
  simp_all

/-- A call of `addWatcher` on a registry that has the group `G` registered for
`R` returns, keeps that registration, and opens no upstream subscription for `R`. -/
theorem addWatcher_keeps_group (s : State) (rid : receiverID) (w : watcher) (R : watchRange)
    (G : Ptr) (h : groupsLookup s.wgs.groups R = some G) :
    (addWatcher s rid w).ret = some () ∧
      groupsLookup (addWatcher s rid w).state.wgs.groups R = some G ∧
      watchCallsFor R (addWatcher s rid w).state.log = watchCallsFor R s.log := by
  cases hm : s.wgs.groups with
  | none => simp [groupsLookup, hm] at h
  | some m =>
    have hR : mapLookup m R = some G := by simpa [groupsLookup, hm] using h
    cases hl : groupsLookup s.wgs.groups w.wr with
    | some wg =>
      simp only [addWatcher, hl]
      by_cases h0 : ((s.heap wg).add rid w).1 = 0
      · simp [h0, h]
      · simp [h0, h, watchCallsFor, opensRange]
    | none =>
      have hne : w.wr ≠ R := by
        intro he
        rw [he, h] at hl
        cases hl
      have hf := watchRange_ne_fields w.wr R hne
      simp only [addWatcher, hl]
      simp only [hm]
      have hlk : mapLookup (mapInsert m w.wr s.nextPtr) R = some G := by
        rw [mapLookup_mapInsert_ne m w.wr R s.nextPtr hne]
        exact hR
      refine ⟨by first | rfl | trivial, ?_, ?_⟩
      · simpa [groupsLookup] using hlk
      · by_cases hk : w.wr.key = R.key
        · have hend : ¬ (R.end_ = w.wr.end_) := fun he => hf ⟨hk, he.symm⟩
          simp [watchCallsFor, opensRange, hk, hend]
        · simp [watchCallsFor, opensRange, hk]

/-- A call of `removeWatcher` never touches the range map and opens no upstream
subscription. -/
theorem removeWatcher_keeps_group (s : State) (rid : receiverID) (R : watchRange) (G : Ptr)
    (h : groupsLookup s.wgs.groups R = some G) :
    (removeWatcher s rid).ret.isSome = true ∧
      groupsLookup (removeWatcher s rid).state.wgs.groups R = some G ∧
      watchCallsFor R (removeWatcher s rid).state.log = watchCallsFor R s.log := by
  cases hl : mapLookup s.wgs.idToGroup rid with
  | none => simp [removeWatcher, hl, h]
  | some g =>
    simp only [removeWatcher, hl]
    by_cases he : ((s.heap g).delete rid).isEmpty = true
    · simp [he, h, watcherGroup.stop, watchCallsFor, opensRange]
    · simp [he, h]

/-- A call of `maybeJoinWatcherSingle` on a registry that has the group `G`
registered for `R` returns, keeps that registration, and opens no upstream
subscription. -/
theorem maybeJoinWatcherSingle_keeps_group (s : State) (ws : watcherSingle) (R : watchRange)
    (G : Ptr) (h : groupsLookup s.wgs.groups R = some G) :
    (maybeJoinWatcherSingle s ws).ret.isSome = true ∧
      groupsLookup (maybeJoinWatcherSingle s ws).state.wgs.groups R = some G ∧
      watchCallsFor R (maybeJoinWatcherSingle s ws).state.log = watchCallsFor R s.log := by
  cases hm : s.wgs.groups with
  | none => simp [groupsLookup, hm] at h
  | some m =>
    have hR : mapLookup m R = some G := by simpa [groupsLookup, hm] using h
    cases hl : groupsLookup s.wgs.groups ws.w.wr with
    | some wg => simp [maybeJoinWatcherSingle, hl, h]
    | none =>
      have hne : ws.w.wr ≠ R := by
        intro he
        rw [he, h] at hl
        cases hl
      by_cases hp : ws.canPromote = true
      · simp only [maybeJoinWatcherSingle, hl, hp]
        simp only [hm]
        have hlk : mapLookup (mapInsert m ws.w.wr s.nextPtr) R = some G := by
          rw [mapLookup_mapInsert_ne m ws.w.wr R s.nextPtr hne]
          exact hR
        refine ⟨rfl, ?_, ?_⟩
        · simpa [groupsLookup] using hlk
        · simp [watchCallsFor, opensRange]
      · simp [maybeJoinWatcherSingle, hl, hp, h]

/-- Any sequence of registry calls on a registry that has the group `G`
registered for `R` runs to completion, keeps that registration, and opens no
upstream subscription for `R`. -/
theorem runCalls_keeps_group (calls : List Call) (R : watchRange) (G : Ptr) :
    ∀ s : State, groupsLookup s.wgs.groups R = some G →
      ∃ s2, runCalls s calls = some s2 ∧ groupsLookup s2.wgs.groups R = some G ∧
        watchCallsFor R s2.log = watchCallsFor R s.log := by
  induction calls with
  | nil => intro s h; exact ⟨s, rfl, h, rfl⟩
  | cons c cs ih =>
    intro s h
    have hstep : ∃ s1, Call.run s c = some s1 ∧ groupsLookup s1.wgs.groups R = some G ∧
        watchCallsFor R s1.log = watchCallsFor R s.log := by
      cases c with
      | addWatcher rid w =>
        obtain ⟨hr, hg, hw⟩ := addWatcher_keeps_group s rid w R G h
        exact ⟨_, by simp [Call.run, hr], hg, hw⟩
      | removeWatcher rid =>
        obtain ⟨hr, hg, hw⟩ := removeWatcher_keeps_group s rid R G h
        obtain ⟨v, hv⟩ := Option.isSome_iff_exists.mp hr
        exact ⟨_, by simp [Call.run, hv], hg, hw⟩
      | maybeJoinWatcherSingle ws =>
        obtain ⟨hr, hg, hw⟩ := maybeJoinWatcherSingle_keeps_group s ws R G h
        obtain ⟨v, hv⟩ := Option.isSome_iff_exists.mp hr
        exact ⟨_, by simp [Call.run, hv], hg, hw⟩
    obtain ⟨s1, h1, hg1, hw1⟩ := hstep
    obtain ⟨s2, h2, hg2, hw2⟩ := ih s1 hg1
    exact ⟨s2, by simp [runCalls, h1, h2], hg2, hw2.trans hw1⟩

/-- Any sequence of registry calls and fan-out steps on a registry that has the
group `G` registered for `R` runs to completion, keeps that registration, and
opens no upstream subscription for `R`. -/
theorem runSteps_keeps_group (steps : List Step) (R : watchRange) (G : Ptr) :
    ∀ s : State, groupsLookup s.wgs.groups R = some G →
      ∃ s2, runSteps s steps = some s2 ∧ groupsLookup s2.wgs.groups R = some G ∧
        watchCallsFor R s2.log = watchCallsFor R s.log := by
  induction steps with
  | nil => intro s h; exact ⟨s, rfl, h, rfl⟩
  | cons st rest ih =>
    intro s h
    have hstep : ∃ s1, Step.run s st = some s1 ∧ groupsLookup s1.wgs.groups R = some G ∧
        watchCallsFor R s1.log = watchCallsFor R s.log := by
      cases st with
      | call c =>
        obtain ⟨s1, h1, hg1, hw1⟩ := runCalls_keeps_group [c] R G s h
        refine ⟨s1, ?_, hg1, hw1⟩
        cases hc : Call.run s c with
        | none => simp [runCalls, hc] at h1
        | some s1c =>
          simp only [runCalls, hc, Option.some_bind] at h1
          simpa [Step.run, hc] using h1
      | fanOut wg rev => exact ⟨_, rfl, h, rfl⟩
    obtain ⟨s1, h1, hg1, hw1⟩ := hstep
    obtain ⟨s2, h2, hg2, hw2⟩ := ih s1 hg1
    exact ⟨s2, by simp [runSteps, h1, h2], hg2, hw2.trans hw1⟩

/-- When `addWatcher` finds no group for the watcher's range and returns, the
group it allocated at the fresh address is registered for that range. -/
theorem addWatcher_returns_registers (s : State) (rid : receiverID) (w : watcher)
    (hno : groupsLookup s.wgs.groups w.wr = none) (hret : (addWatcher s rid w).ret = some ()) :
    groupsLookup (addWatcher s rid w).state.wgs.groups w.wr = some s.nextPtr := by
  cases hm : s.wgs.groups with
  | none =>
    simp only [addWatcher, hno] at hret
    simp only [hm] at hret
    cases hret
  | some m =>
    simp only [addWatcher, hno]
    simp only [hm]
    simp [groupsLookup, mapLookup, mapInsert]

/-- C4 as stated fails: on a fresh registry `addWatcher(ridA, watcherA)`
creates group 0 for `rangeR`; after the intervening call `removeWatcher(ridA)`
that group is empty and stopped, and the later `addWatcher(ridB, watcherB)` on
the same range still finds group 0 under `groups[rangeR]`, but `ridB` is not a
member of its receiver set afterwards. -/
theorem addWatcher_rejoin_stopped_group_not_member :
    groupsLookup (emptyRegistry 0).wgs.groups watcherA.wr = none ∧
      (addWatcher (emptyRegistry 0) ridA watcherA).ret = some () ∧
      groupsLookup (addWatcher (emptyRegistry 0) ridA watcherA).state.wgs.groups rangeR = some 0 ∧
      watcherB.wr = watcherA.wr ∧
      runCalls (addWatcher (emptyRegistry 0) ridA watcherA).state [Call.removeWatcher ridA] =
        some stateStale ∧
      groupsLookup (addWatcher stateStale ridB watcherB).state.wgs.groups rangeR = some 0 ∧
      ((addWatcher stateStale ridB watcherB).state.heap 0).hasReceiver ridB = false :=
  ⟨by decide, by decide, by decide, by decide, rfl, by decide, by decide⟩

/-- C4 (amended): starting from a registry with no group for `R = wA.wr`, if
`addWatcher(ridA, wA)` returns (thereby creating the group `G` at the fresh
address), then after any intervening sequence of `addWatcher`, `removeWatcher`
and `maybeJoinWatcherSingle` calls, interleaved with any steps of the fan-out
tasks (so `G` may be at any revision it has observed), which always runs to
completion, a later `addWatcher(ridB, wB)` with `wB.wr = R` returns without
calling `cw.Watch`; no upstream subscription for `R` was opened since the
creation of `G`; `groups[R]` is still `G`; and `ridB` is a member of `G`'s
receiver set afterwards provided `G` had not been stopped before the call. -/
theorem addWatcher_same_range_joins (s0 : State) (ridA ridB : receiverID) (wA wB : watcher)
    (steps : List Step)
    (hno : groupsLookup s0.wgs.groups wA.wr = none)
    (hA : (addWatcher s0 ridA wA).ret = some ())
    (hB : wB.wr = wA.wr) :
    groupsLookup (addWatcher s0 ridA wA).state.wgs.groups wA.wr = some s0.nextPtr ∧
      ∃ s2, runSteps (addWatcher s0 ridA wA).state steps = some s2 ∧
        (addWatcher s2 ridB wB).ret = some () ∧
        watchCalls (addWatcher s2 ridB wB).state.log = watchCalls s2.log ∧
        watchCallsFor wA.wr (addWatcher s2 ridB wB).state.log =
          watchCallsFor wA.wr (addWatcher s0 ridA wA).state.log ∧
        groupsLookup (addWatcher s2 ridB wB).state.wgs.groups wA.wr = some s0.nextPtr ∧
        ((s2.heap s0.nextPtr).stopped = false →
          ((addWatcher s2 ridB wB).state.heap s0.nextPtr).hasReceiver ridB = true) := by
  have hG := addWatcher_returns_registers s0 ridA wA hno hA
  refine ⟨hG, ?_⟩
  obtain ⟨s2, hrun, hg2, hw2⟩ := runSteps_keeps_group steps wA.wr s0.nextPtr _ hG
  have hg2B : groupsLookup s2.wgs.groups wB.wr = some s0.nextPtr := by rw [hB]; exact hg2
  obtain ⟨hr, hg3, hw3⟩ := addWatcher_keeps_group s2 ridB wB wA.wr s0.nextPtr hg2
  refine ⟨s2, hrun, hr, ?_, hw3.trans hw2, hg3, ?_⟩
  · simp only [addWatcher, hg2B]
    by_cases h0 : ((s2.heap s0.nextPtr).add ridB wB).1 = 0
    · simp [h0]
    · simp [h0, watchCalls]
  · intro hrun2
    simp only [addWatcher, hg2B]
    split_ifs <;>
      simp [watcherGroup.add, hrun2, watcherGroup.hasReceiver, mapLookup_mapInsert_self]

/-- Witness for `addWatcher_same_range_joins`: on a fresh registry, create the
group for `rangeR` with `ridA` and let its fan-out task observe revision 5; the
group is then established, running and without `ridB`, and the later
`addWatcher(ridB, watcherB)` makes `ridB` a member without a `cw.Watch` call. -/
theorem addWatcher_same_range_joins_witness :
    groupsLookup (emptyRegistry 0).wgs.groups watcherA.wr = none ∧
      (addWatcher (emptyRegistry 0) ridA watcherA).ret = some () ∧
      watcherB.wr = watcherA.wr ∧
      runSteps (addWatcher (emptyRegistry 0) ridA watcherA).state [Step.fanOut 0 5] =
        some scenario2 ∧
      (scenario2.heap (emptyRegistry 0).nextPtr).revision = 5 ∧
      (scenario2.heap (emptyRegistry 0).nextPtr).stopped = false ∧
      (scenario2.heap (emptyRegistry 0).nextPtr).hasReceiver ridB = false ∧
      (addWatcher scenario2 ridB watcherB).ret = some () ∧
      watchCalls (addWatcher scenario2 ridB watcherB).state.log = watchCalls scenario2.log ∧
      watchCallsFor watcherA.wr (addWatcher scenario2 ridB watcherB).state.log =
        watchCallsFor watcherA.wr (addWatcher (emptyRegistry 0) ridA watcherA).state.log ∧
      groupsLookup (addWatcher scenario2 ridB watcherB).state.wgs.groups watcherA.wr =
        some (emptyRegistry 0).nextPtr ∧
      ((addWatcher scenario2 ridB watcherB).state.heap (emptyRegistry 0).nextPtr).hasReceiver
        ridB = true := by
  obtain ⟨_, s2, hrun, hret, hw, hwf, hg, hmem⟩ :=
    addWatcher_same_range_joins (emptyRegistry 0) ridA ridB watcherA watcherB
      [Step.fanOut 0 5] (by decide) (by decide) (by decide)
  have hs2 : s2 = scenario2 := by
    have h : some scenario2 = some s2 := hrun
    exact (Option.some.inj h).symm
  subst hs2
  exact ⟨by decide, by decide, by decide, rfl, by decide, by decide, by decide, hret, hw, hwf,
    hg, hmem (by decide)⟩

/-! ## `maybeJoinWatcherSingle`: joining an existing group -/

/-- C11: when a group already exists for the single watcher's range,
`maybeJoinWatcherSingle` returns true exactly when that group's `add` returns a
value other than `-1` and false exactly when it returns `-1`; the outcome is
the same whatever `canPromote()` reports; no group is allocated, the range map
is unchanged and no external action (so no `cw.Watch`) is performed. -/
theorem maybeJoinWatcherSingle_existing_group (s : State) (ws : watcherSingle) (g : Ptr)
    (h : groupsLookup s.wgs.groups ws.w.wr = some g) :
    ((maybeJoinWatcherSingle s ws).ret = some true ↔
        ((s.heap g).add { streamID := ws.sws.id, watcherID := ws.w.id } ws.w).1 ≠ -1) ∧
      ((maybeJoinWatcherSingle s ws).ret = some false ↔
        ((s.heap g).add { streamID := ws.sws.id, watcherID := ws.w.id } ws.w).1 = -1) ∧
      (∀ b : Bool, maybeJoinWatcherSingle s { ws with promotable := b } =
        maybeJoinWatcherSingle s ws) ∧
      (maybeJoinWatcherSingle s ws).state.nextPtr = s.nextPtr ∧
      (maybeJoinWatcherSingle s ws).state.wgs.groups = s.wgs.groups ∧
      (maybeJoinWatcherSingle s ws).state.log = s.log := by
  refine ⟨?_, ?_, ?_, ?_, ?_, ?_⟩
  · simp [maybeJoinWatcherSingle, h]
  · simp [maybeJoinWatcherSingle, h]
  · intro b
    have hb : groupsLookup s.wgs.groups ({ ws with promotable := b } : watcherSingle).w.wr
        = some g := h
    simp only [maybeJoinWatcherSingle, hb, h]
  · simp [maybeJoinWatcherSingle, h]
  · simp [maybeJoinWatcherSingle, h]
  · simp [maybeJoinWatcherSingle, h]

/-- Witness for `maybeJoinWatcherSingle_existing_group`: the unpromotable
`singleFrozen` joins the running group 0 of `stateA`. -/
theorem maybeJoinWatcherSingle_existing_group_witness :
    groupsLookup stateA.wgs.groups singleFrozen.w.wr = some 0 ∧
      (maybeJoinWatcherSingle stateA singleFrozen).ret = some true ∧
      (maybeJoinWatcherSingle stateA singleFrozen).state.nextPtr = stateA.nextPtr ∧
      (maybeJoinWatcherSingle stateA singleFrozen).state.log = stateA.log :=
  ⟨by decide,
    (maybeJoinWatcherSingle_existing_group stateA singleFrozen 0 (by decide)).1.mpr (by decide),
    (maybeJoinWatcherSingle_existing_group stateA singleFrozen 0 (by decide)).2.2.2.1,
    (maybeJoinWatcherSingle_existing_group stateA singleFrozen 0 (by decide)).2.2.2.2.2⟩

/-- C20: when a group already exists for the single watcher's range,
`maybeJoinWatcherSingle` leaves the registry struct, hence both maps, unchanged;
so if `rid = {ws.sws.id, ws.w.id}` had no reverse-map entry, a `removeWatcher(rid)`
right afterwards returns `(-1, false)` and changes nothing, and when the join
returned true the receiver is still in the group's receiver set. -/
theorem maybeJoinWatcherSingle_join_leaves_maps (s : State) (ws : watcherSingle) (g : Ptr)
    (h : groupsLookup s.wgs.groups ws.w.wr = some g) :
    (maybeJoinWatcherSingle s ws).state.wgs = s.wgs ∧
      (mapLookup s.wgs.idToGroup { streamID := ws.sws.id, watcherID := ws.w.id } = none →
        removeWatcher (maybeJoinWatcherSingle s ws).state
            { streamID := ws.sws.id, watcherID := ws.w.id } =
          ⟨some (-1, false), (maybeJoinWatcherSingle s ws).state⟩ ∧
        ((maybeJoinWatcherSingle s ws).ret = some true →
          ((removeWatcher (maybeJoinWatcherSingle s ws).state
            { streamID := ws.sws.id, watcherID := ws.w.id }).state.heap g).hasReceiver
              { streamID := ws.sws.id, watcherID := ws.w.id } = true)) := by
  have hw : (maybeJoinWatcherSingle s ws).state.wgs = s.wgs := by
    simp [maybeJoinWatcherSingle, h]
  refine ⟨hw, ?_⟩
  intro hnone
  have hrm : removeWatcher (maybeJoinWatcherSingle s ws).state
      { streamID := ws.sws.id, watcherID := ws.w.id } =
        ⟨some (-1, false), (maybeJoinWatcherSingle s ws).state⟩ := by
    simp [removeWatcher, hw, hnone]
  refine ⟨hrm, ?_⟩
  intro hret
  rw [hrm]
  simp only [maybeJoinWatcherSingle, h] at hret ⊢
  by_cases hs : (s.heap g).stopped = true
  · simp [watcherGroup.add, hs] at hret
  · simp [watcherGroup.add, hs, watcherGroup.hasReceiver, mapLookup_mapInsert_self]

/-- Witness for `maybeJoinWatcherSingle_join_leaves_maps`: after `singleFrozen`
joins group 0 of `stateA`, its identity `ridB` is unknown to `removeWatcher`
while the group still holds it. -/
theorem maybeJoinWatcherSingle_join_leaves_maps_witness :
    groupsLookup stateA.wgs.groups singleFrozen.w.wr = some 0 ∧
      mapLookup stateA.wgs.idToGroup
        { streamID := singleFrozen.sws.id, watcherID := singleFrozen.w.id } = none ∧
      (maybeJoinWatcherSingle stateA singleFrozen).ret = some true ∧
      removeWatcher (maybeJoinWatcherSingle stateA singleFrozen).state
          { streamID := singleFrozen.sws.id, watcherID := singleFrozen.w.id } =
        ⟨some (-1, false), (maybeJoinWatcherSingle stateA singleFrozen).state⟩ ∧
      ((removeWatcher (maybeJoinWatcherSingle stateA singleFrozen).state
          { streamID := singleFrozen.sws.id, watcherID := singleFrozen.w.id }).state.heap
            0).hasReceiver
          { streamID := singleFrozen.sws.id, watcherID := singleFrozen.w.id } = true :=
  ⟨by decide, by decide, by decide,
    ((maybeJoinWatcherSingle_join_leaves_maps stateA singleFrozen 0 (by decide)).2
      (by decide)).1,
    ((maybeJoinWatcherSingle_join_leaves_maps stateA singleFrozen 0 (by decide)).2
      (by decide)).2 (by decide)⟩

/-! ## `stop` -/

theorem mapLookup_mem {κ ν : Type} [DecidableEq κ] (m : List (κ × ν)) (k : κ) (v : ν)
    (h : mapLookup m k = some v) : (k, v) ∈ m := by
  induction m with
  | nil => simp [mapLookup] at h
  | cons e rest ih =>
    obtain ⟨k1, v1⟩ := e
    by_cases hk : k1 = k
    · subst hk
      simp [mapLookup] at h
      simp [h]
    · simp [mapLookup, hk] at h
      exact List.mem_cons_of_mem _ (ih h)

theorem stopGroup_heap (s : State) (wg p : Ptr) :
    (stopGroup s wg).heap p =
      if p = wg then { s.heap wg with stopped := true } else s.heap p := by
  by_cases hp : p = wg
  · subst hp
    simp [stopGroup, watcherGroup.stop]
  · simp [stopGroup, hp, Function.update_noteq hp]

/-- The loop of `stop` touches neither the registry struct nor the allocation
counters. -/
theorem stopLoop_frame (m : List (watchRange × Ptr)) :
    ∀ s : State, (m.foldl (fun st e => stopGroup st e.2) s).wgs = s.wgs ∧
      (m.foldl (fun st e => stopGroup st e.2) s).nextPtr = s.nextPtr := by
  induction m with
  | nil => intro s; exact ⟨rfl, rfl⟩
  | cons e rest ih =>
    intro s
    obtain ⟨h1, h2⟩ := ih (stopGroup s e.2)
    exact ⟨by simpa [stopGroup] using h1, by simpa [stopGroup] using h2⟩

/-- The loop of `stop` changes only stopped flags, and only from running to
stopped. -/
theorem stopLoop_heap (m : List (watchRange × Ptr)) :
    ∀ (s : State) (p : Ptr),
      ((m.foldl (fun st e => stopGroup st e.2) s).heap p).cancel = (s.heap p).cancel ∧
      ((m.foldl (fun st e => stopGroup st e.2) s).heap p).receivers = (s.heap p).receivers ∧
      ((m.foldl (fun st e => stopGroup st e.2) s).heap p).rev = (s.heap p).rev ∧
      ((s.heap p).stopped = true →
        ((m.foldl (fun st e => stopGroup st e.2) s).heap p).stopped = true) := by
  induction m with
  | nil => intro s p; exact ⟨rfl, rfl, rfl, fun h => h⟩
  | cons e rest ih =>
    intro s p
    obtain ⟨h1, h2, h3, h4⟩ := ih (stopGroup s e.2) p
    have hstep : ((stopGroup s e.2).heap p).cancel = (s.heap p).cancel ∧
        ((stopGroup s e.2).heap p).receivers = (s.heap p).receivers ∧
        ((stopGroup s e.2).heap p).rev = (s.heap p).rev ∧
        ((s.heap p).stopped = true → ((stopGroup s e.2).heap p).stopped = true) := by
      rw [stopGroup_heap]
      by_cases hp : p = e.2
      · subst hp
        simp
      · simp [hp]
    simp only [List.foldl_cons]
    exact ⟨h1.trans hstep.1, h2.trans hstep.2.1, h3.trans hstep.2.2.1,
      fun hs => h4 (hstep.2.2.2 hs)⟩

/-- The loop of `stop` stops every group it visits. -/
theorem stopLoop_stops (m : List (watchRange × Ptr)) :
    ∀ (s : State) (e : watchRange × Ptr), e ∈ m →
      ((m.foldl (fun st e => stopGroup st e.2) s).heap e.2).stopped = true := by
  induction m with
  | nil => intro s e he; simp at he
  | cons e1 rest ih =>
    intro s e he
    simp only [List.foldl_cons]
    rcases List.mem_cons.mp he with heq | hin
    · subst heq
      apply (stopLoop_heap rest (stopGroup s e.2) e.2).2.2.2
      rw [stopGroup_heap]
      simp
    · exact ih (stopGroup s e1.2) e hin

/-- The external actions of the loop of `stop`: one invocation of the cancel
function of each visited group, in order. -/
theorem stopLoop_log (m : List (watchRange × Ptr)) :
    ∀ s : State, (m.foldl (fun st e => stopGroup st e.2) s).log =
      s.log ++ m.map (fun e => Event.cancel (s.heap e.2).cancel) := by
  induction m with
  | nil => intro s; simp
  | cons e rest ih =>
    intro s
    simp only [List.foldl_cons, List.map_cons]
    rw [ih (stopGroup s e.2)]
    have hc : ∀ p, ((stopGroup s e.2).heap p).cancel = (s.heap p).cancel := by
      intro p
      rw [stopGroup_heap]
      by_cases hp : p = e.2
      · subst hp; simp
      · simp [hp]
    simp only [hc]
    simp [stopGroup, watcherGroup.stop]

/-- C13 as stated fails: in `stateA` the reverse map holds `ridA`, and after
`stop()` the reverse map still holds that entry. -/
theorem stop_keeps_reverse_map_entries :
    mapLookup stateA.wgs.idToGroup ridA = some 0 ∧
      (stop stateA).ret = some () ∧
      mapLookup (stop stateA).state.wgs.idToGroup ridA = some 0 := by
  decide

/-- C13 (amended): `stop()` returns and discards the KeyRange->group map, which
is `nil` afterwards and so holds no entry for any range; the reverse map
`idToGroup` is left exactly as it was. -/
theorem stop_discards_range_map_only (s : State) :
    (stop s).ret = some () ∧
      (stop s).state.wgs.groups = none ∧
      (∀ R, groupsLookup (stop s).state.wgs.groups R = none) ∧
      (stop s).state.wgs.idToGroup = s.wgs.idToGroup := by
  refine ⟨rfl, rfl, fun R => rfl, ?_⟩
  cases hm : s.wgs.groups with
  | none => simp [stop, hm]
  | some m =>
    simp only [stop, hm]
    rw [(stopLoop_frame m s).1]

/-! ## Frame of `removeWatcher` -/

/-- C14: `removeWatcher` never changes the KeyRange->group map, whether the
identity is unknown, removed from a group that keeps other receivers, or
removed from a group that is thereby emptied and stopped. -/
theorem removeWatcher_keeps_range_map (s : State) (rid : receiverID) :
    (removeWatcher s rid).state.wgs.groups = s.wgs.groups := by
  cases hl : mapLookup s.wgs.idToGroup rid with
  | none => simp [removeWatcher, hl]
  | some g =>
    simp only [removeWatcher, hl]
    split_ifs <;> rfl

/-! ## Groups of the reverse map are registered in the range map -/

theorem addWatcher_join_wgs (s : State) (rid : receiverID) (w : watcher) (wg : Ptr)
    (h : groupsLookup s.wgs.groups w.wr = some wg) :
    (addWatcher s rid w).ret = some () ∧
      (addWatcher s rid w).state.wgs =
        { s.wgs with idToGroup := mapInsert s.wgs.idToGroup rid wg } := by
  simp only [addWatcher, h]
  split_ifs <;> exact ⟨rfl, rfl⟩

theorem addWatcher_create_wgs (s : State) (rid : receiverID) (w : watcher)
    (m : List (watchRange × Ptr)) (hm : s.wgs.groups = some m)
    (hno : mapLookup m w.wr = none) :
    (addWatcher s rid w).ret = some () ∧
      (addWatcher s rid w).state.wgs =
        { groups := some (mapInsert m w.wr s.nextPtr),
          idToGroup := mapInsert s.wgs.idToGroup rid s.nextPtr,
          proxyCtx := s.wgs.proxyCtx } := by
  have hl : groupsLookup s.wgs.groups w.wr = none := by simp [groupsLookup, hm, hno]
  simp only [addWatcher, hl]
  simp only [hm]
  constructor <;> trivial

theorem maybeJoinWatcherSingle_promote_wgs (s : State) (ws : watcherSingle)
    (m : List (watchRange × Ptr)) (hm : s.wgs.groups = some m)
    (hno : mapLookup m ws.w.wr = none) (hp : ws.canPromote = true) :
    (maybeJoinWatcherSingle s ws).ret = some true ∧
      (maybeJoinWatcherSingle s ws).state.wgs =
        { groups := some (mapInsert m ws.w.wr s.nextPtr),
          idToGroup := mapInsert s.wgs.idToGroup
            { streamID := ws.sws.id, watcherID := ws.w.id } s.nextPtr,
          proxyCtx := s.wgs.proxyCtx } := by
  have hl : groupsLookup s.wgs.groups ws.w.wr = none := by simp [groupsLookup, hm, hno]
  simp only [maybeJoinWatcherSingle, hl, hp]
  simp only [hm]
  exact ⟨rfl, rfl⟩

/-- Registering a fresh group under a range that had none, and pointing one
identity at it, keeps every reverse-map target registered. -/
theorem linked_after_register (m : List (watchRange × Ptr)) (ids : List (receiverID × Ptr))
    (R : watchRange) (rid : receiverID) (p0 : Ptr) (hno : mapLookup m R = none)
    (hl : ∀ r p, mapLookup ids r = some p → ∃ R1, mapLookup m R1 = some p) :
    ∀ r p, mapLookup (mapInsert ids rid p0) r = some p →
      ∃ R1, mapLookup (mapInsert m R p0) R1 = some p := by
  intro r p hr
  by_cases hrid : rid = r
  · subst hrid
    rw [mapLookup_mapInsert_self] at hr
    cases hr
    exact ⟨R, mapLookup_mapInsert_self m R p0⟩
  · rw [mapLookup_mapInsert_ne _ _ _ _ hrid] at hr
    obtain ⟨R1, hR1⟩ := hl r p hr
    have hne : R ≠ R1 := by
      intro he
      rw [he, hR1] at hno
      cases hno
    exact ⟨R1, by rw [mapLookup_mapInsert_ne m R R1 p0 hne]; exact hR1⟩

theorem emptyRegistry_linked (c : Context) : Linked (emptyRegistry c) :=
  ⟨[], rfl, fun rid p h => by simp [emptyRegistry, mapLookup] at h⟩

theorem addWatcher_linked (s : State) (rid : receiverID) (w : watcher) (h : Linked s) :
    (addWatcher s rid w).ret = some () ∧ Linked (addWatcher s rid w).state := by
  obtain ⟨m, hm, hl⟩ := h
  cases hlk : mapLookup m w.wr with
  | some wg =>
    have hg : groupsLookup s.wgs.groups w.wr = some wg := by simp [groupsLookup, hm, hlk]
    obtain ⟨hr, hw⟩ := addWatcher_join_wgs s rid w wg hg
    refine ⟨hr, m, by rw [hw]; exact hm, ?_⟩
    intro r p hrp
    rw [hw] at hrp
    by_cases hrid : rid = r
    · subst hrid
      simp only [mapLookup_mapInsert_self] at hrp
      cases hrp
      exact ⟨w.wr, hlk⟩
    · simp only [mapLookup_mapInsert_ne _ _ _ _ hrid] at hrp
      exact hl r p hrp
  | none =>
    obtain ⟨hr, hw⟩ := addWatcher_create_wgs s rid w m hm hlk
    refine ⟨hr, mapInsert m w.wr s.nextPtr, by rw [hw], ?_⟩
    rw [hw]
    exact linked_after_register m s.wgs.idToGroup w.wr rid s.nextPtr hlk hl

theorem removeWatcher_wgs (s : State) (rid : receiverID) :
    (removeWatcher s rid).ret.isSome = true ∧
      (removeWatcher s rid).state.wgs.groups = s.wgs.groups ∧
      ∀ r, r ≠ rid →
        mapLookup (removeWatcher s rid).state.wgs.idToGroup r = mapLookup s.wgs.idToGroup r := by
  cases hl : mapLookup s.wgs.idToGroup rid with
  | none => simp [removeWatcher, hl]
  | some g =>
    simp only [removeWatcher, hl]
    refine ⟨rfl, ?_, ?_⟩
    · split_ifs <;> rfl
    · intro r hne
      split_ifs <;> exact mapLookup_mapDelete_ne _ _ _ (Ne.symm hne)

theorem removeWatcher_idToGroup_self (s : State) (rid : receiverID) :
    mapLookup (removeWatcher s rid).state.wgs.idToGroup rid = none := by
  cases hl : mapLookup s.wgs.idToGroup rid with
  | none => simp [removeWatcher, hl]
  | some g =>
    simp only [removeWatcher, hl]
    split_ifs <;> exact mapLookup_mapDelete_self _ _

theorem removeWatcher_linked (s : State) (rid : receiverID) (h : Linked s) :
    (removeWatcher s rid).ret.isSome = true ∧ Linked (removeWatcher s rid).state := by
  obtain ⟨m, hm, hl⟩ := h
  obtain ⟨hr, hg, hids⟩ := removeWatcher_wgs s rid
  refine ⟨hr, m, by rw [hg]; exact hm, ?_⟩
  intro r p hrp
  by_cases hrid : r = rid
  · subst hrid
    rw [removeWatcher_idToGroup_self] at hrp
    cases hrp
  · rw [hids r hrid] at hrp
    exact hl r p hrp

theorem maybeJoinWatcherSingle_linked (s : State) (ws : watcherSingle) (h : Linked s) :
    (maybeJoinWatcherSingle s ws).ret.isSome = true ∧
      Linked (maybeJoinWatcherSingle s ws).state := by
  obtain ⟨m, hm, hl⟩ := h
  cases hlk : mapLookup m ws.w.wr with
  | some wg =>
    have hg : groupsLookup s.wgs.groups ws.w.wr = some wg := by simp [groupsLookup, hm, hlk]
    simp only [maybeJoinWatcherSingle, hg]
    exact ⟨rfl, m, hm, hl⟩
  | none =>
    by_cases hp : ws.canPromote = true
    · obtain ⟨hr, hw⟩ := maybeJoinWatcherSingle_promote_wgs s ws m hm hlk hp
      refine ⟨by rw [hr]; rfl, mapInsert m ws.w.wr s.nextPtr, by rw [hw], ?_⟩
      rw [hw]
      exact linked_after_register m s.wgs.idToGroup ws.w.wr _ s.nextPtr hlk hl
    · have hg : groupsLookup s.wgs.groups ws.w.wr = none := by simp [groupsLookup, hm, hlk]
      simp only [maybeJoinWatcherSingle, hg, hp]
      exact ⟨rfl, m, hm, hl⟩

/-- Every sequence of calls on a registry in which the reverse-map targets are
registered runs to completion and ends in such a registry. -/
theorem runCalls_linked (calls : List Call) :
    ∀ s : State, Linked s → ∃ s2, runCalls s calls = some s2 ∧ Linked s2 := by
  induction calls with
  | nil => intro s h; exact ⟨s, rfl, h⟩
  | cons c cs ih =>
    intro s h
    have hstep : ∃ s1, Call.run s c = some s1 ∧ Linked s1 := by
      cases c with
      | addWatcher rid w =>
        obtain ⟨hr, hL⟩ := addWatcher_linked s rid w h
        exact ⟨_, by simp [Call.run, hr], hL⟩
      | removeWatcher rid =>
        obtain ⟨hr, hL⟩ := removeWatcher_linked s rid h
        obtain ⟨v, hv⟩ := Option.isSome_iff_exists.mp hr
        exact ⟨_, by simp [Call.run, hv], hL⟩
      | maybeJoinWatcherSingle ws =>
        obtain ⟨hr, hL⟩ := maybeJoinWatcherSingle_linked s ws h
        obtain ⟨v, hv⟩ := Option.isSome_iff_exists.mp hr
        exact ⟨_, by simp [Call.run, hv], hL⟩
    obtain ⟨s1, h1, hL1⟩ := hstep
    obtain ⟨s2, h2, hL2⟩ := ih s1 hL1
    exact ⟨s2, by simp [runCalls, h1, h2], hL2⟩

/-- Every sequence of calls and fan-out steps on a registry in which the
reverse-map targets are registered runs to completion and ends in such a
registry. -/
theorem runSteps_linked (steps : List Step) :
    ∀ s : State, Linked s → ∃ s2, runSteps s steps = some s2 ∧ Linked s2 := by
  induction steps with
  | nil => intro s h; exact ⟨s, rfl, h⟩
  | cons st rest ih =>
    intro s h
    have hstep : ∃ s1, Step.run s st = some s1 ∧ Linked s1 := by
      cases st with
      | call c =>
        obtain ⟨s1, h1, hL1⟩ := runCalls_linked [c] s h
        refine ⟨s1, ?_, hL1⟩
        cases hc : Call.run s c with
        | none => simp [runCalls, hc] at h1
        | some s1c =>
          simp only [runCalls, hc, Option.some_bind] at h1
          simpa [Step.run, hc] using h1
      | fanOut wg rev => exact ⟨_, rfl, h⟩
    obtain ⟨s1, h1, hL1⟩ := hstep
    obtain ⟨s2, h2, hL2⟩ := ih s1 hL1
    exact ⟨s2, by simp [runSteps, h1, h2], hL2⟩

/-- C12: in every registry state reached from an empty registry by
`addWatcher`, `removeWatcher` and `maybeJoinWatcherSingle` calls, interleaved
with any steps of the fan-out tasks (so the groups may be at any revision they
have observed), `stop()` returns, and every group referenced by the range map or
by the reverse map before the call is stopped afterwards, its cancel function
having been invoked during the call. -/
theorem stop_stops_every_group (c : Context) (steps : List Step) (s : State)
    (hreach : runSteps (emptyRegistry c) steps = some s) (p : Ptr)
    (href : (∃ R, groupsLookup s.wgs.groups R = some p) ∨
      (∃ rid, mapLookup s.wgs.idToGroup rid = some p)) :
    (stop s).ret = some () ∧
      ((stop s).state.heap p).stopped = true ∧
      ∃ evs, (stop s).state.log = s.log ++ evs ∧ Event.cancel (s.heap p).cancel ∈ evs := by
  obtain ⟨s2, h2, hL⟩ := runSteps_linked steps (emptyRegistry c) (emptyRegistry_linked c)
  rw [hreach] at h2
  cases h2
  obtain ⟨m, hm, hl⟩ := hL
  have hreg : ∃ R, mapLookup m R = some p := by
    rcases href with ⟨R, hR⟩ | ⟨rid, hrid⟩
    · exact ⟨R, by simpa [groupsLookup, hm] using hR⟩
    · exact hl rid p hrid
  obtain ⟨R, hR⟩ := hreg
  have hmem : (R, p) ∈ m := mapLookup_mem m R p hR
  refine ⟨rfl, ?_, ?_⟩
  · simp only [stop, hm]
    exact stopLoop_stops m s (R, p) hmem
  · refine ⟨m.map (fun e => Event.cancel (s.heap e.2).cancel), ?_, ?_⟩
    · simp only [stop, hm]
      exact stopLoop_log m s
    · exact List.mem_map.mpr ⟨(R, p), hmem, rfl⟩

/-- Witness for `stop_stops_every_group`: after `addWatcher(ridA, watcherA)`, a
fan-out step to revision 5 and `addWatcher(ridB, watcherB)` on a fresh registry,
group 0 is established at revision 5 and referenced by both maps, and `stop()`
stops it. -/
theorem stop_stops_every_group_witness :
    runSteps (emptyRegistry 0)
        [Step.call (Call.addWatcher ridA watcherA), Step.fanOut 0 5,
          Step.call (Call.addWatcher ridB watcherB)] = some scenario3 ∧
      (scenario3.heap 0).revision = 5 ∧
      (scenario3.heap 0).stopped = false ∧
      mapLookup scenario3.wgs.idToGroup ridB = some 0 ∧
      (stop scenario3).ret = some () ∧
      ((stop scenario3).state.heap 0).stopped = true ∧
      ∃ evs, (stop scenario3).state.log = scenario3.log ++ evs ∧
        Event.cancel (scenario3.heap 0).cancel ∈ evs :=
  ⟨rfl, by decide, by decide, by decide,
    stop_stops_every_group 0
      [Step.call (Call.addWatcher ridA watcherA), Step.fanOut 0 5,
        Step.call (Call.addWatcher ridB watcherB)] scenario3 rfl 0
      (Or.inr ⟨ridB, by decide⟩)⟩

/-- C16: `removeWatcher(rid)` does not disturb other receivers: for every other
identity the reverse-map entry is unchanged and, in every group, its receiver
record (hence its membership) is unchanged; and every group other than the one
`rid` was registered to is left exactly as it was (receiver set, revision and
stopped flag). -/
theorem removeWatcher_frame (s : State) (rid other : receiverID) (hne : other ≠ rid) :
    mapLookup (removeWatcher s rid).state.wgs.idToGroup other =
        mapLookup s.wgs.idToGroup other ∧
      (∀ p, mapLookup ((removeWatcher s rid).state.heap p).receivers other =
        mapLookup (s.heap p).receivers other) ∧
      (∀ p, ((removeWatcher s rid).state.heap p).hasReceiver other =
        (s.heap p).hasReceiver other) ∧
      (∀ p, mapLookup s.wgs.idToGroup rid ≠ some p →
        (removeWatcher s rid).state.heap p = s.heap p) := by
  have hrec : ∀ p, mapLookup ((removeWatcher s rid).state.heap p).receivers other =
      mapLookup (s.heap p).receivers other := by
    intro p
    cases hl : mapLookup s.wgs.idToGroup rid with
    | none => simp [removeWatcher, hl]
    | some g =>
      simp only [removeWatcher, hl]
      by_cases hp : p = g
      · subst hp
        split_ifs <;>
          simp [watcherGroup.stop, watcherGroup.delete,
            mapLookup_mapDelete_ne _ _ _ (Ne.symm hne)]
      · split_ifs <;> simp [Function.update_noteq hp]
  refine ⟨(removeWatcher_wgs s rid).2.2 other hne, hrec, ?_, ?_⟩
  · intro p
    simp only [watcherGroup.hasReceiver, hrec p]
  · intro p hp
    cases hl : mapLookup s.wgs.idToGroup rid with
    | none => simp [removeWatcher, hl]
    | some g =>
      have hpg : p ≠ g := by
        intro he
        apply hp
        rw [hl, he]
      simp only [removeWatcher, hl]
      split_ifs <;> simp [Function.update_noteq hpg]

/-- Witness for `removeWatcher_frame`: removing `ridA` from `stateAB` leaves
`ridB` registered to group 0 and a member of it. -/
theorem removeWatcher_frame_witness :
    ridB ≠ ridA ∧
      mapLookup (removeWatcher stateAB ridA).state.wgs.idToGroup ridB = some 0 ∧
      ((removeWatcher stateAB ridA).state.heap 0).hasReceiver ridB = true :=
  ⟨by decide,
    (removeWatcher_frame stateAB ridA ridB (by decide)).1.trans (by decide),
    ((removeWatcher_frame stateAB ridA ridB (by decide)).2.2.1 0).trans (by decide)⟩

/-! ## Stale range entries -/

/-- C19: when `removeWatcher(last)` removes the last receiver of the group `G`
registered for the range `R`, the group is stopped; a subsequent
`addWatcher(rid, w)` with `w.wr = R` returns having joined against the stopped
`G` (whose `add` answers `-1`): no `cw.Watch` call is made, no group is
allocated, `groups[R]` is still `G`, and `G` is still stopped. -/
theorem addWatcher_after_last_removal (s : State) (R : watchRange) (G : Ptr)
    (last rid : receiverID) (w : watcher)
    (hG : groupsLookup s.wgs.groups R = some G)
    (hlast : mapLookup s.wgs.idToGroup last = some G)
    (hempty : ((s.heap G).delete last).isEmpty = true)
    (hw : w.wr = R) :
    ((removeWatcher s last).state.heap G).stopped = true ∧
      (addWatcher (removeWatcher s last).state rid w).ret = some () ∧
      (((removeWatcher s last).state.heap G).add rid w).1 = -1 ∧
      watchCalls (addWatcher (removeWatcher s last).state rid w).state.log =
        watchCalls (removeWatcher s last).state.log ∧
      (addWatcher (removeWatcher s last).state rid w).state.nextPtr =
        (removeWatcher s last).state.nextPtr ∧
      groupsLookup (addWatcher (removeWatcher s last).state rid w).state.wgs.groups R =
        some G ∧
      ((addWatcher (removeWatcher s last).state rid w).state.heap G).stopped = true := by
  have hstop : ((removeWatcher s last).state.heap G).stopped = true := by
    simp only [removeWatcher, hlast, Function.update_same, hempty, if_true]
    simp [watcherGroup.stop]
  have hg1 : groupsLookup (removeWatcher s last).state.wgs.groups w.wr = some G := by
    rw [hw]
    exact (removeWatcher_keeps_group s last R G hG).2.1
  have hadd : (((removeWatcher s last).state.heap G).add rid w) =
      (-1, (removeWatcher s last).state.heap G) := by
    simp [watcherGroup.add, hstop]
  refine ⟨hstop, ?_, by rw [hadd], ?_, ?_, ?_, ?_⟩
  · exact (addWatcher_join_wgs _ rid w G hg1).1
  · simp only [addWatcher, hg1, hadd]
    simp [watchCalls]
  · simp only [addWatcher, hg1, hadd]
    simp
  · rw [(addWatcher_join_wgs _ rid w G hg1).2]
    rw [← hw]
    exact hg1
  · simp only [addWatcher, hg1, hadd]
    simp [hstop]

/-- Witness for `addWatcher_after_last_removal`: in `stateA` the receiver `ridA`
is the last one of group 0; after its removal `addWatcher(ridB, watcherB)`
joins the stopped group. -/
theorem addWatcher_after_last_removal_witness :
    groupsLookup stateA.wgs.groups rangeR = some 0 ∧
      mapLookup stateA.wgs.idToGroup ridA = some 0 ∧
      ((stateA.heap 0).delete ridA).isEmpty = true ∧
      watcherB.wr = rangeR ∧
      ((removeWatcher stateA ridA).state.heap 0).stopped = true ∧
      (addWatcher (removeWatcher stateA ridA).state ridB watcherB).ret = some () ∧
      (((removeWatcher stateA ridA).state.heap 0).add ridB watcherB).1 = -1 ∧
      watchCalls (addWatcher (removeWatcher stateA ridA).state ridB watcherB).state.log =
        watchCalls (removeWatcher stateA ridA).state.log ∧
      (addWatcher (removeWatcher stateA ridA).state ridB watcherB).state.nextPtr =
        (removeWatcher stateA ridA).state.nextPtr ∧
      groupsLookup
        (addWatcher (removeWatcher stateA ridA).state ridB watcherB).state.wgs.groups rangeR =
          some 0 ∧
      ((addWatcher (removeWatcher stateA ridA).state ridB watcherB).state.heap 0).stopped
        = true :=
  ⟨by decide, by decide, by decide, by decide,
    addWatcher_after_last_removal stateA rangeR 0 ridA ridB watcherB (by decide) (by decide)
      (by decide) (by decide)⟩

/-! ## Acknowledgment revision and interleavings -/

/-- C18: evaluation at the failing input.  In `stateStale5` the group registered
for `rangeR` is stopped and its `revision()` reports 5; `addWatcher(ridB,
watcherB)` takes the join path and attempts an acknowledgment whose
`Header.Revision` is `-1`, the group's revision still being 5 afterwards. -/
theorem addWatcher_ack_carries_rejected_sentinel :
    groupsLookup stateStale5.wgs.groups watcherB.wr = some 0 ∧
      (stateStale5.heap 0).stopped = true ∧
      (stateStale5.heap 0).revision = 5 ∧
      (addWatcher stateStale5 ridB watcherB).state.log = stateStale5.log ++
        [Event.send watcherB.sws.watchCh watcherB.sws.ctx
          { Header := { Revision := -1 }, WatchId := ridB.watcherID, Created := true }] ∧
      ((addWatcher stateStale5 ridB watcherB).state.heap 0).revision = 5 := by
  decide

/-- C17: evaluation at the failing schedule.  One thread calls
`addWatcher(ridA, watcherA)` then `removeWatcher(ridA)`, another calls
`addWatcher(ridB, watcherB)` on the same range; in the schedule where the second
thread's call takes the mutex last, every call returns and the final state
violates I1. -/
theorem interleaving_breaks_I1 :
    ∃ sched s,
      Interleaving [Call.addWatcher ridA watcherA, Call.removeWatcher ridA]
        [Call.addWatcher ridB watcherB] sched ∧
      runCalls (emptyRegistry 0) sched = some s ∧
      ¬ I1 s := by
  refine ⟨[Call.addWatcher ridA watcherA, Call.removeWatcher ridA,
    Call.addWatcher ridB watcherB], _,
    Interleaving.left _ (Interleaving.left _ (Interleaving.right _ Interleaving.nil)), rfl, ?_⟩
  intro hI
  have hb := hI ridB 0 (by decide)
  revert hb
  decide

/-! ## The concrete scenario of the spec -/

/-- C15: the scenario as a trace from a registry whose range map is allocated
and holds no group for `R = wA.wr`, with two distinct receivers on `R`.
`addWatcher(ridA, wA)` returns, registers a new group `G` at revision 0, opens
one upstream subscription and sends no acknowledgment.  Once the fan-out task
has observed revision 5, `addWatcher(ridB, wB)` returns and its only external
action is the delivery attempt of `{Revision = 5, WatchId = ridB.watcherID,
Created = true}` on `wB`'s own channel.  Then `removeWatcher(ridA)` returns
`(5, true)`, performs no external action, and `G` is running and holds `ridB`;
finally `removeWatcher(ridB)` returns `(5, true)` and `G` is empty and stopped,
its cancel function having been invoked. -/
theorem concrete_scenario (s0 s1 s2 s3 s4 s5 : State) (ridA ridB : receiverID)
    (wA wB : watcher) (m : List (watchRange × Ptr))
    (hm : s0.wgs.groups = some m) (hno : mapLookup m wA.wr = none)
    (hB : wB.wr = wA.wr) (hne : ridA ≠ ridB)
    (h1 : s1 = (addWatcher s0 ridA wA).state)
    (h2 : s2 = fanOut s1 s0.nextPtr 5)
    (h3 : s3 = (addWatcher s2 ridB wB).state)
    (h4 : s4 = (removeWatcher s3 ridA).state)
    (h5 : s5 = (removeWatcher s4 ridB).state) :
    ((addWatcher s0 ridA wA).ret = some () ∧
        groupsLookup s1.wgs.groups wA.wr = some s0.nextPtr ∧
        (s1.heap s0.nextPtr).revision = 0 ∧
        s1.log = s0.log ++
          [Event.withCancel s0.wgs.proxyCtx s0.nextCtx,
            Event.watch s0.nextCtx wA.wr.key
              [OpOption.WithRange wA.wr.end_, OpOption.WithProgressNotify,
                OpOption.WithCreatedNotify] s0.nextCh,
            Event.goRun s0.nextPtr]) ∧
      ((s2.heap s0.nextPtr).revision = 5 ∧
        (addWatcher s2 ridB wB).ret = some () ∧
        groupsLookup s3.wgs.groups wA.wr = some s0.nextPtr ∧
        s3.nextPtr = s2.nextPtr ∧
        s3.log = s2.log ++ [Event.send wB.sws.watchCh wB.sws.ctx
          { Header := { Revision := 5 }, WatchId := ridB.watcherID, Created := true }]) ∧
      ((removeWatcher s3 ridA).ret = some (5, true) ∧
        (s4.heap s0.nextPtr).stopped = false ∧
        (s4.heap s0.nextPtr).hasReceiver ridB = true ∧
        s4.log = s3.log) ∧
      ((removeWatcher s4 ridB).ret = some (5, true) ∧
        (s5.heap s0.nextPtr).isEmpty = true ∧
        (s5.heap s0.nextPtr).stopped = true ∧
        s5.log = s4.log ++ [Event.cancel s0.nextCtx]) := by
  have hl : groupsLookup s0.wgs.groups wA.wr = none := by simp [groupsLookup, hm, hno]
  have hneB : ¬ ridB = ridA := fun h => hne h.symm
  -- the state after the first `addWatcher`
  have e1 : addWatcher s0 ridA wA = ⟨some (),
      { wgs := { groups := some (mapInsert m wA.wr s0.nextPtr),
                 idToGroup := mapInsert s0.wgs.idToGroup ridA s0.nextPtr,
                 proxyCtx := s0.wgs.proxyCtx },
        heap := Function.update s0.heap s0.nextPtr
          { ch := s0.nextCh, cancel := s0.nextCtx, receivers := [(ridA, wA)], rev := 0,
            stopped := false },
        nextPtr := s0.nextPtr + 1, nextCtx := s0.nextCtx + 1, nextCh := s0.nextCh + 1,
        log := s0.log ++
          [Event.withCancel s0.wgs.proxyCtx s0.nextCtx,
            Event.watch s0.nextCtx wA.wr.key
              [OpOption.WithRange wA.wr.end_, OpOption.WithProgressNotify,
                OpOption.WithCreatedNotify] s0.nextCh,
            Event.goRun s0.nextPtr] }⟩ := by
    simp only [addWatcher, hl]
    simp only [hm]
    simp [newWatchergroup, watcherGroup.add, mapInsert, mapDelete]
  rw [e1] at h1
  simp only at h1
  -- the state after the fan-out step
  have hg2 : groupsLookup s2.wgs.groups wB.wr = some s0.nextPtr := by
    rw [h2, h1, hB]
    simp [fanOut, groupsLookup, mapLookup_mapInsert_self]
  have hh2 : s2.heap s0.nextPtr =
      { ch := s0.nextCh, cancel := s0.nextCtx, receivers := [(ridA, wA)], rev := 5,
        stopped := false } := by
    rw [h2, h1]
    simp [fanOut, watcherGroup.broadcast]
  have hi2 : s2.wgs.idToGroup = mapInsert s0.wgs.idToGroup ridA s0.nextPtr := by
    rw [h2, h1]
    rfl
  -- the state after the second `addWatcher`
  have hadd : (s2.heap s0.nextPtr).add ridB wB =
      (5, { ch := s0.nextCh, cancel := s0.nextCtx, receivers := [(ridB, wB), (ridA, wA)],
            rev := 5, stopped := false }) := by
    rw [hh2]
    simp [watcherGroup.add, mapInsert, mapDelete, hne]
  have e3 : addWatcher s2 ridB wB = ⟨some (),
      { s2 with
        heap := Function.update s2.heap s0.nextPtr
          { ch := s0.nextCh, cancel := s0.nextCtx, receivers := [(ridB, wB), (ridA, wA)],
            rev := 5, stopped := false }
        wgs := { s2.wgs with idToGroup := mapInsert s2.wgs.idToGroup ridB s0.nextPtr }
        log := s2.log ++ [Event.send wB.sws.watchCh wB.sws.ctx
          { Header := { Revision := 5 }, WatchId := ridB.watcherID, Created := true }] }⟩ := by
    simp only [addWatcher, hg2, hadd]
    simp
  rw [e3] at h3
  simp only at h3
  have hg3 : groupsLookup s3.wgs.groups wA.wr = some s0.nextPtr := by
    rw [h3, ← hB]
    exact hg2
  have hidA : mapLookup s3.wgs.idToGroup ridA = some s0.nextPtr := by
    rw [h3]
    simp only [hi2]
    rw [mapLookup_mapInsert_ne _ _ _ _ hneB, mapLookup_mapInsert_self]
  -- the state after `removeWatcher(ridA)`
  have e4 : removeWatcher s3 ridA = ⟨some (5, true),
      { s3 with
        heap := Function.update s3.heap s0.nextPtr
          { ch := s0.nextCh, cancel := s0.nextCtx, receivers := [(ridB, wB)],
            rev := 5, stopped := false }
        wgs := { s3.wgs with idToGroup := mapDelete s3.wgs.idToGroup ridA } }⟩ := by
    have hh3 : s3.heap s0.nextPtr =
        { ch := s0.nextCh, cancel := s0.nextCtx, receivers := [(ridB, wB), (ridA, wA)],
          rev := 5, stopped := false } := by
      rw [h3]
      simp
    simp only [removeWatcher, hidA, hh3]
    simp [watcherGroup.delete, watcherGroup.isEmpty, watcherGroup.revision, mapDelete, hneB]
  rw [e4] at h4
  simp only at h4
  have hidB : mapLookup s4.wgs.idToGroup ridB = some s0.nextPtr := by
    rw [h4]
    simp only []
    rw [mapLookup_mapDelete_ne _ _ _ hne, h3]
    simp only []
    rw [mapLookup_mapInsert_self]
  -- the state after `removeWatcher(ridB)`
  have e5 : removeWatcher s4 ridB = ⟨some (5, true),
      { s4 with
        heap := Function.update s4.heap s0.nextPtr
          { ch := s0.nextCh, cancel := s0.nextCtx, receivers := [],
            rev := 5, stopped := true }
        wgs := { s4.wgs with idToGroup := mapDelete s4.wgs.idToGroup ridB }
        log := s4.log ++ [Event.cancel s0.nextCtx] }⟩ := by
    have hh4 : s4.heap s0.nextPtr =
        { ch := s0.nextCh, cancel := s0.nextCtx, receivers := [(ridB, wB)],
          rev := 5, stopped := false } := by
      rw [h4]
      simp
    simp only [removeWatcher, hidB, hh4]
    simp [watcherGroup.delete, watcherGroup.isEmpty, watcherGroup.revision, watcherGroup.stop,
      mapDelete]
  rw [e5] at h5
  simp only at h5
  refine ⟨⟨by rw [e1], ?_, ?_, ?_⟩, ⟨?_, by rw [e3], hg3, ?_, ?_⟩, ⟨by rw [e4], ?_, ?_, ?_⟩,
    ⟨by rw [e5], ?_, ?_, ?_⟩⟩
  · rw [h1]
    simp [groupsLookup, mapLookup_mapInsert_self]
  · rw [h1]
    simp [watcherGroup.revision]
  · rw [h1]
  · rw [hh2]
    rfl
  · rw [h3]
  · rw [h3]
  · rw [h4]
    simp
  · rw [h4]
    simp [watcherGroup.hasReceiver, mapLookup]
  · rw [h4]
  · rw [h5]
    simp [watcherGroup.isEmpty]
  · rw [h5]
    simp
  · rw [h5]

/-- Witness for `concrete_scenario`: the scenario run on a fresh registry with
`ridA`, `ridB` on `rangeR`. -/
theorem concrete_scenario_witness :
    (emptyRegistry 0).wgs.groups = some [] ∧
      mapLookup ([] : List (watchRange × Ptr)) watcherA.wr = none ∧
      watcherB.wr = watcherA.wr ∧
      ridA ≠ ridB ∧
      ((scenario2.heap (emptyRegistry 0).nextPtr).revision = 5 ∧
        (addWatcher scenario2 ridB watcherB).ret = some () ∧
        groupsLookup scenario3.wgs.groups watcherA.wr = some (emptyRegistry 0).nextPtr ∧
        scenario3.nextPtr = scenario2.nextPtr ∧
        scenario3.log = scenario2.log ++ [Event.send watcherB.sws.watchCh watcherB.sws.ctx
          { Header := { Revision := 5 }, WatchId := ridB.watcherID, Created := true }]) ∧
      ((removeWatcher scenario3 ridA).ret = some (5, true) ∧
        (scenario4.heap (emptyRegistry 0).nextPtr).stopped = false ∧
        (scenario4.heap (emptyRegistry 0).nextPtr).hasReceiver ridB = true ∧
        scenario4.log = scenario3.log) ∧
      ((removeWatcher scenario4 ridB).ret = some (5, true) ∧
        (scenario5.heap (emptyRegistry 0).nextPtr).isEmpty = true ∧
        (scenario5.heap (emptyRegistry 0).nextPtr).stopped = true ∧
        scenario5.log = scenario4.log ++ [Event.cancel (emptyRegistry 0).nextCtx]) :=
  ⟨rfl, rfl, by decide, by decide,
    (concrete_scenario (emptyRegistry 0) stateA scenario2 scenario3 scenario4 scenario5
      ridA ridB watcherA watcherB [] rfl rfl (by decide) (by decide) rfl rfl rfl rfl rfl).2⟩

end GrpcProxy
